import Mathlib

/- Verification of the signal-generation and risk-weighted position-sizing
   engine of the indian_trading repository, as a shallow embedding in Lean.
   Python floats are modelled as rationals; `Option` models Python `None`
   and caught exceptions; pandas NaN propagation is modelled explicitly by
   the `PFloat` type where it matters.  Reads from the database or the
   market-data provider (portfolio value, quotes, correlation flags) are
   passed in as explicit parameters. -/

namespace IndianTrading

/-! ## Risk sizer (`risk_manager.py`, class `RiskManager`) -/

/-- The fields of the quote dictionary returned by `get_current_price` that
`calculate_advanced_position_size` and its helpers read.  `Option` fields
model dictionary keys that may be absent. -/
structure PriceData where
  price : ℚ
  high : Option ℚ := none
  low : Option ℚ := none
  volume : Option ℚ := none
  change_percent : Option ℚ := none
deriving DecidableEq

/-- `RiskManager._calculate_enhanced_volatility`: intraday range divided by
price, capped at 10%; 0.02 when high or low is missing, or on the caught
exception when the price is zero (Python float division by zero raises). -/
def calculate_enhanced_volatility (pd : PriceData) : ℚ :=
  match pd.high, pd.low with
  | some h, some l => if pd.price = 0 then 0.02 else min ((h - l) / pd.price) 0.1
  | _, _ => 0.02

/-- `RiskManager._calculate_volatility_adjustment` (stepped bands). -/
def calculate_volatility_adjustment (volatility : ℚ) : ℚ :=
  if volatility < 0.01 then 1.5
  else if volatility < 0.02 then 1.2
  else if volatility < 0.03 then 1
  else if volatility < 0.05 then 0.8
  else 0.5

/-- `RiskManager._calculate_volume_adjustment` (stepped bands; 1.0 when the
volume key is absent or not positive). -/
def calculate_volume_adjustment (pd : PriceData) : ℚ :=
  match pd.volume with
  | some v =>
      if 0 < v then
        if 5000000 < v then 1.3
        else if 2000000 < v then 1.1
        else if 1000000 < v then 1
        else if 500000 < v then 0.9
        else 0.7
      else 1
  | none => 1

/-- `RiskManager._calculate_trend_adjustment` (stepped bands on the absolute
percent change; 1.0 when the key is absent). -/
def calculate_trend_adjustment (pd : PriceData) : ℚ :=
  match pd.change_percent with
  | some c =>
      if 3 < |c| then 1.2
      else if 2 < |c| then 1.1
      else if 1 < |c| then 1
      else 0.9
  | none => 1

/-- `RiskManager.calculate_advanced_position_size`.  The portfolio value and
quote come from the database / data provider and are passed as `Option`
parameters (`none` = Python `None`); `correlated` is the result of
`check_correlation_risk`.  A zero current price makes the Python division
raise, which the enclosing `except` turns into `None`. -/
def calculate_advanced_position_size (portfolio_value : Option ℚ)
    (price_data : Option PriceData) (correlated : Bool)
    (risk_per_trade : ℚ) : Option ℚ :=
  match portfolio_value, price_data with
  | some pv, some pd =>
      if pd.price = 0 then none
      else
        let volatility := calculate_enhanced_volatility pd
        let base_risk_amount := pv * risk_per_trade
        let volatility_adjustment := calculate_volatility_adjustment volatility
        let volume_adjustment := calculate_volume_adjustment pd
        let trend_adjustment := calculate_trend_adjustment pd
        let correlation_penalty : ℚ := if correlated then 0.5 else 1
        let adjusted_risk_amount := base_risk_amount * volatility_adjustment *
          volume_adjustment * trend_adjustment * correlation_penalty
        let position_size := adjusted_risk_amount / pd.price
        let min_position := pv * 0.005 / pd.price
        let max_position := pv * 0.05 / pd.price
        some (max min_position (min max_position position_size))
  | _, _ => none

/-- Clamping with `max lo (min hi x)` lands in `[lo, hi]` when `lo ≤ hi`. -/
theorem clamp_mem (lo hi x : ℚ) (h : lo ≤ hi) :
    lo ≤ max lo (min hi x) ∧ max lo (min hi x) ≤ hi :=
  ⟨le_max_left _ _, max_le h (min_le_left _ _)⟩

/-- Claim C1: for every successful sizing call with portfolio value `pv > 0`
and current price `p > 0`, the returned quantity `q` satisfies
`0.005*pv/p ≤ q ≤ 0.05*pv/p`. -/
theorem advanced_position_size_bounds (pv : ℚ) (pd : PriceData)
    (correlated : Bool) (risk_per_trade q : ℚ)
    (hq : calculate_advanced_position_size (some pv) (some pd) correlated
            risk_per_trade = some q)
    (hpv : 0 < pv) (hp : 0 < pd.price) :
    0.005 * pv / pd.price ≤ q ∧ q ≤ 0.05 * pv / pd.price := by
  unfold calculate_advanced_position_size at hq
  dsimp only at hq
  rw [if_neg hp.ne'] at hq
  obtain rfl : _ = q := Option.some.inj hq
  have hmm : pv * 0.005 / pd.price ≤ pv * 0.05 / pd.price :=
    (div_le_div_iff_of_pos_right hp).mpr (by nlinarith)
  have e1 : (0.005 : ℚ) * pv / pd.price = pv * 0.005 / pd.price := by ring
  have e2 : (0.05 : ℚ) * pv / pd.price = pv * 0.05 / pd.price := by ring
  rw [e1, e2]
  exact clamp_mem _ _ _ hmm

/-- Witness for C1 at a concrete quote: portfolio 100000, price 100,
high 102, low 98, volume 3000000, percent change 4, risk 2%. -/
theorem advanced_position_size_bounds_witness :
    calculate_advanced_position_size (some 100000)
      (some { price := 100, high := some 102, low := some 98,
              volume := some 3000000, change_percent := some 4 })
      false 0.02 = some (528/25) ∧
    (0.005 * 100000 / 100 : ℚ) ≤ 528/25 ∧ (528/25 : ℚ) ≤ 0.05 * 100000 / 100 := by
  have h : calculate_advanced_position_size (some 100000)
      (some { price := 100, high := some 102, low := some 98,
              volume := some 3000000, change_percent := some 4 })
      false 0.02 = some (528/25) := by
    norm_num [calculate_advanced_position_size, calculate_enhanced_volatility,
      calculate_volatility_adjustment, calculate_volume_adjustment,
      calculate_trend_adjustment]
  exact ⟨h, advanced_position_size_bounds 100000 _ false 0.02 (528/25) h
    (by norm_num) (by norm_num)⟩

/-! ## Strategy results and the signal combiner (`indian_trading_system.py`,
class `IndianTradingSystem`) -/

/-- Signal types emitted by the strategies. -/
inductive SigType
  | BUY
  | SELL
  | HOLD
deriving DecidableEq

/-- A strategy-result dictionary as consumed by
`_combine_weighted_signals` (floats as rationals). -/
structure CSignal where
  type : SigType
  confidence : ℚ
  target : ℚ
  stop_loss : ℚ
  strategy_name : String
deriving DecidableEq

/-- The HOLD signal `_combine_weighted_signals` returns for an empty input
list or a zero total weight. -/
def combinedHold (current_price : ℚ) : CSignal :=
  ⟨SigType.HOLD, 0, current_price, current_price, "Combined"⟩

/-- The signal returned by the `except` branch of
`_combine_weighted_signals`.  The only reachable exception is the
`ZeroDivisionError` in the weighted-target average when the winning side's
weight sums to zero (possible only with a negative weight in the list). -/
def combinedError (current_price : ℚ) : CSignal :=
  ⟨SigType.HOLD, 0, current_price, current_price, "Error"⟩

/-- `sum(weight for signal, weight in strategies_results if
signal['type'] == t)`. -/
def type_weight (t : SigType) (rs : List (CSignal × ℚ)) : ℚ :=
  ((rs.filter (fun r => decide (r.1.type = t))).map (fun r => r.2)).sum

/-- Weighted average of a field over the strategies that voted `t`,
divided by that side's weight: `sum(signal[f] * weight ...) / side_weight`. -/
def side_weighted_avg (t : SigType) (f : CSignal → ℚ)
    (rs : List (CSignal × ℚ)) : ℚ :=
  ((rs.filter (fun r => decide (r.1.type = t))).map (fun r => f r.1 * r.2)).sum
    / type_weight t rs

/-- `IndianTradingSystem._combine_weighted_signals`. -/
def combine_weighted_signals (strategies_results : List (CSignal × ℚ))
    (current_price : ℚ) : CSignal :=
  if strategies_results = [] then combinedHold current_price
  else
    let total_weight := (strategies_results.map (fun r => r.2)).sum
    if total_weight = 0 then combinedHold current_price
    else
      let buy_weight := type_weight SigType.BUY strategies_results
      let sell_weight := type_weight SigType.SELL strategies_results
      let hold_weight := type_weight SigType.HOLD strategies_results
      if buy_weight > sell_weight then
        if strategies_results.filter
            (fun r => decide (r.1.type = SigType.BUY)) = [] then
          ⟨SigType.BUY, buy_weight / total_weight,
            current_price * 1.02, current_price * 0.98, "Multi-Strategy"⟩
        else if buy_weight = 0 then combinedError current_price
        else
          ⟨SigType.BUY, buy_weight / total_weight,
            side_weighted_avg SigType.BUY (fun s => s.target) strategies_results,
            side_weighted_avg SigType.BUY (fun s => s.stop_loss) strategies_results,
            "Multi-Strategy"⟩
      else if sell_weight > 0 then
        if strategies_results.filter
            (fun r => decide (r.1.type = SigType.SELL)) = [] then
          ⟨SigType.SELL, sell_weight / total_weight,
            current_price * 0.98, current_price * 1.02, "Multi-Strategy"⟩
        else
          ⟨SigType.SELL, sell_weight / total_weight,
            side_weighted_avg SigType.SELL (fun s => s.target) strategies_results,
            side_weighted_avg SigType.SELL (fun s => s.stop_loss) strategies_results,
            "Multi-Strategy"⟩
      else
        ⟨SigType.HOLD, hold_weight / total_weight,
          current_price, current_price, "Multi-Strategy"⟩

/-- A per-type weight over a list of nonnegatively weighted results is
nonnegative. -/
theorem type_weight_nonneg (t : SigType) (rs : List (CSignal × ℚ))
    (hw : ∀ r ∈ rs, 0 ≤ r.2) : 0 ≤ type_weight t rs := by
  apply List.sum_nonneg
  intro x hx
  obtain ⟨r, hr, rfl⟩ := List.mem_map.mp hx
  exact hw r (List.mem_of_mem_filter hr)

/-- Claim C2: with nonnegative weights and positive total weight, the
combiner selects BUY iff `buy_weight > sell_weight`, otherwise SELL iff
`sell_weight > 0`, otherwise HOLD.  In particular, equal positive buy and
sell weights yield SELL, and any positive sell weight beats a HOLD
majority. -/
theorem combiner_winner_selection (rs : List (CSignal × ℚ)) (cp : ℚ)
    (hw : ∀ r ∈ rs, 0 ≤ r.2)
    (ht : 0 < (rs.map (fun r => r.2)).sum) :
    (combine_weighted_signals rs cp).type =
      (if type_weight SigType.SELL rs < type_weight SigType.BUY rs then
        SigType.BUY
      else if 0 < type_weight SigType.SELL rs then SigType.SELL
      else SigType.HOLD) := by
  have hne : rs ≠ [] := by
    intro h
    rw [h] at ht
    simp at ht
  unfold combine_weighted_signals
  rw [if_neg hne, if_neg ht.ne']
  dsimp only
  have hsell := type_weight_nonneg SigType.SELL rs hw
  by_cases hbs : type_weight SigType.SELL rs < type_weight SigType.BUY rs
  · have hb0 : type_weight SigType.BUY rs ≠ 0 := by
      intro h0
      rw [h0] at hbs
      exact absurd hsell (not_le.mpr hbs)
    rw [if_pos hbs, if_pos hbs]
    by_cases hrel : rs.filter (fun r => decide (r.1.type = SigType.BUY)) = []
    · rw [if_pos hrel]
    · rw [if_neg hrel, if_neg hb0]
  · rw [if_neg hbs, if_neg hbs]
    by_cases hs0 : 0 < type_weight SigType.SELL rs
    · rw [if_pos hs0, if_pos hs0]
      by_cases hrel : rs.filter (fun r => decide (r.1.type = SigType.SELL)) = []
      · rw [if_pos hrel]
      · rw [if_neg hrel]
    · rw [if_neg hs0, if_neg hs0]

/-- Witness for C2 at concrete inputs: equal positive buy and sell weights
fall through to the SELL branch. -/
theorem combiner_winner_selection_witness :
    (combine_weighted_signals
      [(⟨SigType.BUY, 1, 102, 98, "A"⟩, 1),
       (⟨SigType.SELL, 1, 98, 102, "B"⟩, 1)] 100).type = SigType.SELL := by
  have hsell : type_weight SigType.SELL
      [(⟨SigType.BUY, 1, 102, 98, "A"⟩, 1),
       (⟨SigType.SELL, 1, 98, 102, "B"⟩, 1)] = 1 := by
    simp [type_weight, List.filter_cons]
  have hbuy : type_weight SigType.BUY
      [(⟨SigType.BUY, 1, 102, 98, "A"⟩, 1),
       (⟨SigType.SELL, 1, 98, 102, "B"⟩, 1)] = 1 := by
    simp [type_weight, List.filter_cons]
  have h := combiner_winner_selection
    [(⟨SigType.BUY, 1, 102, 98, "A"⟩, 1),
     (⟨SigType.SELL, 1, 98, 102, "B"⟩, 1)] 100
    (by
      intro r hr
      rcases List.mem_cons.mp hr with h | h
      · subst h; norm_num
      · rcases List.mem_cons.mp h with h | h
        · subst h; norm_num
        · simp at h)
    (by norm_num)
  rw [h, hsell, hbuy, if_neg (lt_irrefl 1), if_pos one_pos]

/-! ## Risk-reward ratio (`IndianTradingSystem._calculate_risk_reward`) -/

/-- The reward expression of `_calculate_risk_reward`:
`target - current` for BUY, `current - target` otherwise (SELL). -/
def rewardOf (t : SigType) (target_price current_price : ℚ) : ℚ :=
  if t = SigType.BUY then target_price - current_price
  else current_price - target_price

/-- The risk expression of `_calculate_risk_reward`:
`current - stop` for BUY, `stop - current` otherwise (SELL). -/
def riskOf (t : SigType) (stop_loss current_price : ℚ) : ℚ :=
  if t = SigType.BUY then current_price - stop_loss
  else stop_loss - current_price

/-- `IndianTradingSystem._calculate_risk_reward`.  `close` is the `Close`
column of the bar frame; `iloc[-1]` on an empty frame raises, and the
`except` branch returns 0.0. -/
def calculate_risk_reward (signal_type : SigType)
    (target_price stop_loss : ℚ) (close : List ℚ) : ℚ :=
  if signal_type = SigType.HOLD then 0
  else
    match close.getLast? with
    | none => 0
    | some current_price =>
        let reward := rewardOf signal_type target_price current_price
        let risk := riskOf signal_type stop_loss current_price
        if risk > 0 then reward / risk else 0

/-- Counterexample to claim C4 as stated: a BUY signal whose target lies
below the current price yields a strictly negative risk-reward ratio. -/
theorem risk_reward_negative_cx :
    calculate_risk_reward SigType.BUY 90 95 [100] = -2 ∧
    ¬ 0 ≤ calculate_risk_reward SigType.BUY 90 95 [100] := by
  have h : calculate_risk_reward SigType.BUY 90 95 [100] = -2 := by
    unfold calculate_risk_reward
    rw [if_neg (by simp : ¬ SigType.BUY = SigType.HOLD)]
    norm_num [rewardOf, riskOf]
  refine ⟨h, ?_⟩
  rw [h]
  norm_num

/-- Claim C4 (amended): the ratio is exactly 0 whenever the risk is
nonpositive, and nonnegative whenever the direction-adjusted reward is
nonnegative; the division is only ever performed under the `risk > 0`
guard. -/
theorem risk_reward_amended (t : SigType) (target_price stop_loss : ℚ)
    (close : List ℚ) (cp : ℚ) (hcp : close.getLast? = some cp) :
    (riskOf t stop_loss cp ≤ 0 →
      calculate_risk_reward t target_price stop_loss close = 0) ∧
    (0 ≤ rewardOf t target_price cp →
      0 ≤ calculate_risk_reward t target_price stop_loss close) := by
  unfold calculate_risk_reward
  rw [hcp]
  by_cases th : t = SigType.HOLD
  · simp [th]
  · rw [if_neg th]
    dsimp only
    constructor
    · intro hrisk
      rw [if_neg (not_lt.mpr hrisk)]
    · intro hrew
      by_cases hrisk : riskOf t stop_loss cp > 0
      · rw [if_pos hrisk]
        exact div_nonneg hrew hrisk.le
      · rw [if_neg hrisk]

/-- Witness for the amended C4: BUY, target 102, stop 98, price 100 gives a
nonnegative ratio, and with stop = entry = target-side risk 0 the ratio
is 0. -/
theorem risk_reward_amended_witness :
    0 ≤ calculate_risk_reward SigType.BUY 102 98 [100] ∧
    calculate_risk_reward SigType.BUY 102 100 [100] = 0 := by
  constructor
  · exact (risk_reward_amended SigType.BUY 102 98 [100] 100 rfl).2
      (by norm_num [rewardOf])
  · exact (risk_reward_amended SigType.BUY 102 100 [100] 100 rfl).1
      (by norm_num [riskOf])

/-! ## Pandas float semantics

The indicator layer works on pandas Series whose missing values are IEEE
NaNs, and the snapshot-building code distinguishes an *empty* series from
a series of NaNs.  `PFloat` models a pandas double: a rational, NaN, or a
signed infinity, with IEEE propagation rules. -/

/-- A pandas/NumPy double: NaN, a signed infinity, or a finite value. -/
inductive PFloat
  | nan
  | inf
  | ninf
  | num (q : ℚ)
deriving DecidableEq

namespace PFloat

/-- IEEE addition. -/
def add : PFloat → PFloat → PFloat
  | nan, _ => nan
  | _, nan => nan
  | inf, ninf => nan
  | ninf, inf => nan
  | inf, _ => inf
  | _, inf => inf
  | ninf, _ => ninf
  | _, ninf => ninf
  | num a, num b => num (a + b)

/-- IEEE negation. -/
def neg : PFloat → PFloat
  | nan => nan
  | inf => ninf
  | ninf => inf
  | num a => num (-a)

/-- IEEE subtraction. -/
def sub (x y : PFloat) : PFloat := add x (neg y)

/-- IEEE multiplication (infinity times zero is NaN). -/
def mul : PFloat → PFloat → PFloat
  | nan, _ => nan
  | _, nan => nan
  | inf, inf => inf
  | inf, ninf => ninf
  | ninf, inf => ninf
  | ninf, ninf => inf
  | inf, num b => if b = 0 then nan else if 0 < b then inf else ninf
  | num a, inf => if a = 0 then nan else if 0 < a then inf else ninf
  | ninf, num b => if b = 0 then nan else if 0 < b then ninf else inf
  | num a, ninf => if a = 0 then nan else if 0 < a then ninf else inf
  | num a, num b => num (a * b)

/-- IEEE division (a nonzero finite value divided by zero is a signed
infinity, zero over zero is NaN) — numpy semantics, under which pandas
computes `gain / loss`. -/
def div : PFloat → PFloat → PFloat
  | nan, _ => nan
  | _, nan => nan
  | inf, inf => nan
  | inf, ninf => nan
  | ninf, inf => nan
  | ninf, ninf => nan
  | inf, num b => if 0 ≤ b then inf else ninf
  | ninf, num b => if 0 ≤ b then ninf else inf
  | num _, inf => num 0
  | num _, ninf => num 0
  | num a, num b =>
      if b = 0 then if a = 0 then nan else if 0 < a then inf else ninf
      else num (a / b)

/-- IEEE strict less-than (false whenever either side is NaN). -/
def blt : PFloat → PFloat → Bool
  | nan, _ => false
  | _, nan => false
  | inf, _ => false
  | ninf, ninf => false
  | ninf, _ => true
  | num _, inf => true
  | num _, ninf => false
  | num a, num b => a < b

/-- IEEE strict greater-than. -/
def bgt (x y : PFloat) : Bool := blt y x

/-- NaN test. -/
def isNan : PFloat → Bool
  | nan => true
  | _ => false

theorem blt_self (x : PFloat) : blt x x = false := by
  cases x <;> simp [blt]

theorem bgt_self (x : PFloat) : bgt x x = false := blt_self x

end PFloat

/-! ## RSI and the indicator snapshot (`_calculate_rsi`,
`_calculate_indian_indicators`) -/

/-- `Series.diff()`: the first element is NaN, then successive
differences. -/
def diff (xs : List PFloat) : List PFloat :=
  match xs with
  | [] => []
  | _ :: rest => PFloat.nan :: List.zipWith PFloat.sub rest xs

/-- `s.where(cond, 0)` elementwise: keep the value where the condition
holds, else 0.  A NaN fails every IEEE comparison, so it is replaced
by 0. -/
def whereKeep (p : PFloat → Bool) (xs : List PFloat) : List PFloat :=
  xs.map (fun v => if p v then v else PFloat.num 0)

/-- `rolling(window=w).mean()` with the default `min_periods = w`: NaN
until a full window of non-NaN values is available, else the mean of the
window. -/
def rollingMean (w : ℕ) (xs : List PFloat) : List PFloat :=
  (List.range xs.length).map (fun i =>
    if i + 1 < w then PFloat.nan
    else
      let win := (xs.take (i + 1)).drop (i + 1 - w)
      if win.any PFloat.isNan then PFloat.nan
      else PFloat.div (win.foldl PFloat.add (PFloat.num 0)) (PFloat.num w))

/-- `IndianTradingSystem._calculate_rsi` (period 14):
`gain = delta.where(delta > 0, 0).rolling(14).mean()`,
`loss = (-delta.where(delta < 0, 0)).rolling(14).mean()`,
`rsi = 100 - 100 / (1 + gain / loss)`. -/
def calculate_rsi (prices : List PFloat) (period : ℕ := 14) : List PFloat :=
  let delta := diff prices
  let gain := rollingMean period
    (whereKeep (fun v => PFloat.bgt v (PFloat.num 0)) delta)
  let loss := rollingMean period
    ((whereKeep (fun v => PFloat.blt v (PFloat.num 0)) delta).map PFloat.neg)
  let rs := List.zipWith PFloat.div gain loss
  rs.map (fun r =>
    PFloat.sub (PFloat.num 100)
      (PFloat.div (PFloat.num 100) (PFloat.add (PFloat.num 1) r)))

/-- The `rsi` entry of the dictionary built by
`_calculate_indian_indicators`: `rsi.iloc[-1] if not rsi.empty else 50`.
The 50 fallback fires only when the series is *empty*, not when it is all
NaN. -/
def snapshot_rsi (close_prices : List PFloat) : PFloat :=
  match (calculate_rsi close_prices).getLast? with
  | some v => v
  | none => PFloat.num 50

theorem diff_length (xs : List PFloat) : (diff xs).length = xs.length := by
  cases xs with
  | nil => rfl
  | cons x rest =>
      simp only [diff, List.length_cons, List.length_zipWith]
      omega

theorem rollingMean_of_short (w : ℕ) (xs : List PFloat)
    (h : xs.length < w) :
    rollingMean w xs = List.replicate xs.length PFloat.nan := by
  apply List.ext_getElem
  · simp [rollingMean]
  · intro i h1 h2
    have hi : i < xs.length := by simpa [rollingMean] using h1
    simp only [rollingMean, List.getElem_map, List.getElem_range,
      List.getElem_replicate]
    rw [if_pos (by omega)]

theorem zipWith_div_nan (n m : ℕ) :
    List.zipWith PFloat.div (List.replicate n PFloat.nan)
      (List.replicate m PFloat.nan) =
      List.replicate (min n m) PFloat.nan := by
  induction n generalizing m with
  | zero => simp
  | succ k ih =>
      cases m with
      | zero => simp
      | succ l =>
          simp only [List.replicate_succ, List.zipWith_cons_cons, ih]
          rw [show PFloat.div PFloat.nan PFloat.nan = PFloat.nan from rfl,
            Nat.succ_min_succ]
          rfl

theorem getLast?_replicate (n : ℕ) (c : PFloat) (h : n ≠ 0) :
    (List.replicate n c).getLast? = some c := by
  induction n with
  | zero => omega
  | succ k ih =>
      cases k with
      | zero => rfl
      | succ l =>
          rw [List.replicate_succ, List.replicate_succ,
            List.getLast?_cons_cons, ← List.replicate_succ]
          exact ih (Nat.succ_ne_zero l)

/-- Claim C3 is violated by the code: for every nonempty close series with
fewer than 14 bars, the `rsi` entry of the indicator snapshot is NaN — the
50 fallback tests `rsi.empty`, which a series of NaNs is not. -/
theorem snapshot_rsi_short_history_nan (prices : List PFloat)
    (hne : prices ≠ []) (hlt : prices.length < 14) :
    snapshot_rsi prices = PFloat.nan ∧ PFloat.nan ≠ PFloat.num 50 := by
  refine ⟨?_, by simp⟩
  have hlen : (diff prices).length = prices.length := diff_length prices
  have hg : (whereKeep (fun v => PFloat.bgt v (PFloat.num 0))
      (diff prices)).length = prices.length := by
    simp [whereKeep, hlen]
  have hl : (((whereKeep (fun v => PFloat.blt v (PFloat.num 0))
      (diff prices)).map PFloat.neg)).length = prices.length := by
    simp [whereKeep, hlen]
  have hrsi : calculate_rsi prices = List.replicate prices.length PFloat.nan := by
    simp only [calculate_rsi]
    rw [rollingMean_of_short 14 _ (by rw [hg]; exact hlt),
        rollingMean_of_short 14 _ (by rw [hl]; exact hlt),
        hg, hl, zipWith_div_nan, Nat.min_self, List.map_replicate]
    rfl
  have hne' : prices.length ≠ 0 := by
    simpa using hne
  unfold snapshot_rsi
  rw [hrsi, getLast?_replicate _ _ hne']

/-- Witness for the violated C3 at 10 flat bars of close 100: the snapshot
rsi is NaN, not 50. -/
theorem snapshot_rsi_short_history_nan_witness :
    snapshot_rsi (List.replicate 10 (PFloat.num 100)) = PFloat.nan ∧
    PFloat.nan ≠ PFloat.num 50 :=
  snapshot_rsi_short_history_nan (List.replicate 10 (PFloat.num 100))
    (by simp) (by simp)

/-! ## The indicator dictionary and the trend-following strategy
(`_calculate_indian_indicators`, `trend_following_strategy`) -/

/-- A value in the indicator dictionary: an indicator scalar or a list of
support/resistance levels. -/
inductive IndVal
  | f (v : PFloat)
  | levels (ls : List PFloat)
deriving DecidableEq

/-- The dictionary literal returned by `_calculate_indian_indicators`:
exactly these keys, in this order.  The scalar values are the computed
indicator numbers (left abstract here — claim C9 only depends on which
keys exist). -/
def indianIndicatorsDict (rsi macd macd_signal bb_upper bb_lower
    sma50 sma200 volumeRat : PFloat)
    (support resistance : List PFloat) : List (String × IndVal) :=
  [("rsi", IndVal.f rsi),
   ("macd", IndVal.f macd),
   ("macd_signal", IndVal.f macd_signal),
   ("bb_upper", IndVal.f bb_upper),
   ("bb_lower", IndVal.f bb_lower),
   ("sma50", IndVal.f sma50),
   ("sma200", IndVal.f sma200),
   ("volume_ratio", IndVal.f volumeRat),
   ("support_levels", IndVal.levels support),
   ("resistance_levels", IndVal.levels resistance)]

/-- Python `indicators.get(key, default)` for a key the caller treats as a
scalar.  In the dictionaries this code builds, the keys looked up through
this helper are never bound to level lists, so the `levels` case cannot
fire; it maps to the default to stay total. -/
def dget (d : List (String × IndVal)) (k : String) (dflt : PFloat) : PFloat :=
  match d.find? (fun p => p.1 == k) with
  | some (_, IndVal.f v) => v
  | some (_, IndVal.levels _) => dflt
  | none => dflt

/-- A strategy-result dictionary whose target/stop may carry pandas float
values (NaN when built from insufficient history). -/
structure PSignal where
  type : SigType
  confidence : ℚ
  target : PFloat
  stop_loss : PFloat
  strategy_name : String
deriving DecidableEq

/-- `IndianTradingSystem.trend_following_strategy`.  `current_price` is
`data['Close'].iloc[-1]`; the other inputs come from the indicator
dictionary via `.get` with the defaults the source uses. -/
def trend_following_strategy (current_price : PFloat)
    (indicators : List (String × IndVal)) : PSignal :=
  let sma_20 := dget indicators "sma_20" current_price
  let sma_50 := dget indicators "sma_50" current_price
  let ema_12 := dget indicators "ema_12" current_price
  let ema_26 := dget indicators "ema_26" current_price
  let macd := dget indicators "macd" (PFloat.num 0)
  let macd_signal := dget indicators "macd_signal" (PFloat.num 0)
  let bullish_trend := PFloat.bgt current_price sma_20 &&
    PFloat.bgt sma_20 sma_50 && PFloat.bgt ema_12 ema_26 &&
    PFloat.bgt macd macd_signal
  let bearish_trend := PFloat.blt current_price sma_20 &&
    PFloat.blt sma_20 sma_50 && PFloat.blt ema_12 ema_26 &&
    PFloat.blt macd macd_signal
  if bullish_trend then
    ⟨SigType.BUY, 0.7, PFloat.mul current_price (PFloat.num 1.025),
      PFloat.mul sma_20 (PFloat.num 0.995), "Trend Following"⟩
  else if bearish_trend then
    ⟨SigType.SELL, 0.7, PFloat.mul current_price (PFloat.num 0.975),
      PFloat.mul sma_20 (PFloat.num 1.005), "Trend Following"⟩
  else
    ⟨SigType.HOLD, 0.3, current_price, current_price, "Trend Following"⟩

theorem dget_indianIndicators_sma_20 (rsi macd macd_signal bb_upper bb_lower
    sma50 sma200 volumeRat : PFloat) (support resistance : List PFloat)
    (d : PFloat) :
    dget (indianIndicatorsDict rsi macd macd_signal bb_upper bb_lower
      sma50 sma200 volumeRat support resistance) "sma_20" d = d := rfl

theorem dget_indianIndicators_sma_50 (rsi macd macd_signal bb_upper bb_lower
    sma50 sma200 volumeRat : PFloat) (support resistance : List PFloat)
    (d : PFloat) :
    dget (indianIndicatorsDict rsi macd macd_signal bb_upper bb_lower
      sma50 sma200 volumeRat support resistance) "sma_50" d = d := rfl

/-- Claim C9 is violated by the code: on the indicator snapshot produced by
`_calculate_indian_indicators` — whatever the indicator values are — the
trend-following strategy always returns HOLD with confidence 0.3 and
target = stop = current price.  The dictionary binds `sma50`/`sma200` but
not the `sma_20`, `sma_50`, `ema_12`, `ema_26` keys the strategy reads, so
those lookups fall back to the current price and both trend conditions
compare the price with itself. -/
theorem trend_following_on_snapshot_always_hold (current_price : PFloat)
    (rsi macd macd_signal bb_upper bb_lower sma50 sma200 volumeRat : PFloat)
    (support resistance : List PFloat) :
    trend_following_strategy current_price
      (indianIndicatorsDict rsi macd macd_signal bb_upper bb_lower
        sma50 sma200 volumeRat support resistance) =
      ⟨SigType.HOLD, 0.3, current_price, current_price, "Trend Following"⟩ := by
  unfold trend_following_strategy
  rw [dget_indianIndicators_sma_20, dget_indianIndicators_sma_50]
  simp [PFloat.bgt_self, PFloat.blt_self]

/-! ## Trailing stops (`auto_trader.py`, class `AutoTrader`) -/

/-- An entry of `AutoTrader.active_trades`.  `trailing_stop` models the
presence of the `'trailing_stop'` key in the trade dictionary. -/
structure ATrade where
  user_id : ℕ
  symbol : String
  direction : String
  quantity : ℚ
  entry_price : ℚ
  stop_loss : ℚ
  take_profit : ℚ
  trailing_stop : Bool
deriving DecidableEq

/-- `AutoTrader._update_trailing_stop` for one trade.  `current_price` is
the `get_current_price` result (`none` = no quote, early return).  For a
BUY the stop ratchets to `price - (entry - stop)` only when that is
strictly greater than the current stop; symmetric for SELL. -/
def update_trailing_stop (trade : ATrade) (current_price : Option ℚ) : ATrade :=
  if trade.trailing_stop = false then trade
  else
    match current_price with
    | none => trade
    | some price =>
        if trade.direction = "BUY" then
          if trade.entry_price < price then
            let new_stop := price - (trade.entry_price - trade.stop_loss)
            if trade.stop_loss < new_stop then
              { trade with stop_loss := new_stop }
            else trade
          else trade
        else if trade.direction = "SELL" then
          if price < trade.entry_price then
            let new_stop := price + (trade.stop_loss - trade.entry_price)
            if new_stop < trade.stop_loss then
              { trade with stop_loss := new_stop }
            else trade
          else trade
        else trade

theorem update_trailing_stop_step (t : ATrade) (p : Option ℚ) :
    (update_trailing_stop t p).direction = t.direction ∧
    ((t.direction = "BUY" →
        t.stop_loss ≤ (update_trailing_stop t p).stop_loss) ∧
     (t.direction = "SELL" →
        (update_trailing_stop t p).stop_loss ≤ t.stop_loss)) := by
  unfold update_trailing_stop
  by_cases hts : t.trailing_stop = false
  · rw [if_pos hts]
    exact ⟨rfl, fun _ => le_rfl, fun _ => le_rfl⟩
  · rw [if_neg hts]
    cases p with
    | none => exact ⟨rfl, fun _ => le_rfl, fun _ => le_rfl⟩
    | some price =>
        dsimp only
        by_cases hb : t.direction = "BUY"
        · rw [if_pos hb]
          by_cases h1 : t.entry_price < price
          · rw [if_pos h1]
            by_cases h2 : t.stop_loss < price - (t.entry_price - t.stop_loss)
            · rw [if_pos h2]
              refine ⟨rfl, fun _ => h2.le, fun hs => ?_⟩
              exact absurd (hb.symm.trans hs) (by decide)
            · rw [if_neg h2]
              exact ⟨rfl, fun _ => le_rfl, fun _ => le_rfl⟩
          · rw [if_neg h1]
            exact ⟨rfl, fun _ => le_rfl, fun _ => le_rfl⟩
        · rw [if_neg hb]
          by_cases hsl : t.direction = "SELL"
          · rw [if_pos hsl]
            by_cases h1 : price < t.entry_price
            · rw [if_pos h1]
              by_cases h2 : price + (t.stop_loss - t.entry_price) < t.stop_loss
              · rw [if_pos h2]
                refine ⟨rfl, fun hbuy => ?_, fun _ => h2.le⟩
                exact absurd (hsl.symm.trans hbuy) (by decide)
              · rw [if_neg h2]
                exact ⟨rfl, fun _ => le_rfl, fun _ => le_rfl⟩
            · rw [if_neg h1]
              exact ⟨rfl, fun _ => le_rfl, fun _ => le_rfl⟩
          · rw [if_neg hsl]
            exact ⟨rfl, fun _ => le_rfl, fun _ => le_rfl⟩

/-- Claim C6: over any sequence of trailing-stop updates, the stop of a
BUY trade never decreases and the stop of a SELL trade never increases. -/
theorem trailing_stop_monotonic (t : ATrade) (ps : List (Option ℚ)) :
    (t.direction = "BUY" →
      t.stop_loss ≤ (ps.foldl update_trailing_stop t).stop_loss) ∧
    (t.direction = "SELL" →
      (ps.foldl update_trailing_stop t).stop_loss ≤ t.stop_loss) := by
  induction ps generalizing t with
  | nil => simp
  | cons p ps ih =>
      obtain ⟨hdir, hbuy, hsell⟩ := update_trailing_stop_step t p
      rw [List.foldl_cons]
      constructor
      · intro hd
        exact le_trans (hbuy hd)
          ((ih (update_trailing_stop t p)).1 (hdir.trans hd))
      · intro hd
        exact le_trans
          ((ih (update_trailing_stop t p)).2 (hdir.trans hd)) (hsell hd)

/-- A concrete BUY trade used in the ledger witnesses. -/
def sampleATrade : ATrade :=
  { user_id := 1, symbol := "NIFTY50", direction := "BUY", quantity := 10,
    entry_price := 100, stop_loss := 98, take_profit := 102,
    trailing_stop := true }

/-- Witness for C6: a BUY trade with entry 100 / stop 98, prices moving to
105 then 103, never lowers its stop. -/
theorem trailing_stop_monotonic_witness :
    sampleATrade.direction = "BUY" ∧
    sampleATrade.stop_loss ≤
      ([some 105, some 103].foldl update_trailing_stop sampleATrade).stop_loss :=
  ⟨rfl, (trailing_stop_monotonic sampleATrade [some 105, some 103]).1 rfl⟩

/-- `AutoTrader._can_open_position`: the risk-limit check (an external
read, passed as a flag) and the duplicate check over the active trades. -/
def can_open_position (active : List ATrade) (user_id : ℕ) (symbol : String)
    (risk_ok : Bool) : Bool :=
  risk_ok && !(active.any (fun t => t.symbol == symbol && t.user_id == user_id))

/-- The `AutoTrader` open path does reject duplicates: when
`_can_open_position` returns true, no active trade of this user on this
symbol exists. -/
theorem can_open_position_guards (active : List ATrade) (u : ℕ) (s : String)
    (risk_ok : Bool) (h : can_open_position active u s risk_ok = true) :
    ∀ t ∈ active, ¬(t.symbol = s ∧ t.user_id = u) := by
  intro t ht ⟨hs, hu⟩
  unfold can_open_position at h
  rw [Bool.and_eq_true, Bool.not_eq_true', List.any_eq_false] at h
  have := h.2 t ht
  simp [hs, hu] at this

/-! ## The IndianAutoTrader ledger (`indian_trading_system.py`,
class `IndianAutoTrader`) -/

/-- An entry of `IndianAutoTrader.active_trades`. -/
structure ITrade where
  id : String
  symbol : String
  type : String
  entry_price : ℚ
  target_price : ℚ
  stop_loss : ℚ
  quantity : ℚ
  confidence : ℚ
  entry_epoch : ℚ
  status : String
deriving DecidableEq

/-- A closed-trade record (appended to `trade_history` and to the
`trades` table). -/
structure ClosedTrade where
  id : String
  symbol : String
  type : String
  entry_price : ℚ
  exit_price : ℚ
  quantity : ℚ
  reason : String
  pnl_amount : ℚ
deriving DecidableEq

/-- The state an `IndianAutoTrader` owns for its one `user_id`: the
in-memory active-trade dict (in insertion order), in-memory history and
total P&L, and the persisted tables (`trades`, `portfolio_history`,
`active_trades` ids). -/
structure TraderState where
  active_trades : List (String × ITrade)
  trade_history : List ClosedTrade
  total_pnl : ℚ
  db_trades : List ClosedTrade
  portfolio_history : List ℚ
  db_active : List String
  initial_balance : ℚ
deriving DecidableEq

/-- `trade_id in d` / `d[trade_id]` for the Python dict. -/
def dictFind (d : List (String × ITrade)) (k : String) : Option ITrade :=
  (d.find? (fun p => p.1 == k)).map (fun p => p.2)

/-- `d[k] = v` on the Python dict: replace in place if the key exists,
else append. -/
def dictInsert (d : List (String × ITrade)) (k : String) (v : ITrade) :
    List (String × ITrade) :=
  if (d.find? (fun p => p.1 == k)).isSome then
    d.map (fun p => if p.1 == k then (k, v) else p)
  else d ++ [(k, v)]

/-- `del d[k]`. -/
def dictErase (d : List (String × ITrade)) (k : String) :
    List (String × ITrade) :=
  d.filter (fun p => !(p.1 == k))

/-- The `IndianTradeSignal` fields `_execute_trade` reads. -/
structure ITradeSignal where
  symbol : String
  signal_type : String
  confidence : ℚ
  entry_price : ℚ
  target_price : ℚ
  stop_loss : ℚ
deriving DecidableEq

/-- `IndianAutoTrader._execute_trade`: creates a trade record with id
`"indian_" + symbol + "_" + str(int(time.time()))` and status ACTIVE, adds
it to the active dict and (INSERT OR REPLACE) to the `active_trades`
table.  There is no check for an existing active trade on the same
symbol. -/
def execute_trade (st : TraderState) (sig : ITradeSignal) (epoch : ℕ)
    (default_quantity : ℚ) : TraderState :=
  let trade_id := "indian_" ++ sig.symbol ++ "_" ++ toString epoch
  let trade : ITrade :=
    { id := trade_id, symbol := sig.symbol, type := sig.signal_type,
      entry_price := sig.entry_price, target_price := sig.target_price,
      stop_loss := sig.stop_loss, quantity := default_quantity,
      confidence := sig.confidence, entry_epoch := (epoch : ℚ),
      status := "ACTIVE" }
  { st with
    active_trades := dictInsert st.active_trades trade_id trade,
    db_active := (st.db_active.filter (fun i => !(i == trade_id)))
      ++ [trade_id] }

/-- Number of ACTIVE entries for a symbol in the active-trade dict (the
trader serves a single user, so this is the per-(symbol, user) count). -/
def active_count_for (st : TraderState) (symbol : String) : ℕ :=
  (st.active_trades.filter
    (fun p => p.2.symbol == symbol && p.2.status == "ACTIVE")).length

/-- The empty ledger state. -/
def emptyState : TraderState :=
  { active_trades := [], trade_history := [], total_pnl := 0,
    db_trades := [], portfolio_history := [], db_active := [],
    initial_balance := 100000 }

/-- A concrete NIFTY50 BUY signal. -/
def sampleSignal : ITradeSignal :=
  { symbol := "NIFTY50", signal_type := "BUY", confidence := 1/2,
    entry_price := 100, target_price := 102, stop_loss := 98 }

/-- Claim C5 is violated by `IndianAutoTrader._execute_trade`: two open
attempts for the same symbol (one second apart) both go through, leaving
two ACTIVE trades for the same (symbol, user). -/
theorem duplicate_open_creates_second_active :
    active_count_for
      (execute_trade (execute_trade emptyState sampleSignal 1 10)
        sampleSignal 2 10) "NIFTY50" = 2 := rfl

/-- The most recent value in `portfolio_history`, or `initial_balance` if
the table is empty (`SELECT portfolio_value ... ORDER BY timestamp DESC
LIMIT 1`). -/
def lastPortfolioValue (st : TraderState) : ℚ :=
  match st.portfolio_history.getLast? with
  | some v => v
  | none => st.initial_balance

/-- `IndianAutoTrader._close_trade`: a no-op when the id is not in the
active dict; otherwise computes the realized P&L
(`(exit-entry)*qty` for BUY, `(entry-exit)*qty` otherwise), adds it to
`total_pnl`, appends the closed record to the in-memory history and the
`trades` table, appends `last portfolio value + P&L` to
`portfolio_history`, deletes the `active_trades` row, and removes the
trade from the dict. -/
def close_trade (st : TraderState) (trade_id reason : String)
    (exit_price : ℚ) : TraderState :=
  match dictFind st.active_trades trade_id with
  | none => st
  | some trade =>
      let pnl_amount :=
        if trade.type = "BUY" then
          (exit_price - trade.entry_price) * trade.quantity
        else (trade.entry_price - exit_price) * trade.quantity
      let closed : ClosedTrade :=
        { id := trade_id, symbol := trade.symbol, type := trade.type,
          entry_price := trade.entry_price, exit_price := exit_price,
          quantity := trade.quantity, reason := reason,
          pnl_amount := pnl_amount }
      let new_value := lastPortfolioValue st + pnl_amount
      { st with
        total_pnl := st.total_pnl + pnl_amount,
        trade_history := st.trade_history ++ [closed],
        db_trades := st.db_trades ++ [closed],
        portfolio_history := st.portfolio_history ++ [new_value],
        db_active := st.db_active.filter (fun i => !(i == trade_id)),
        active_trades := dictErase st.active_trades trade_id }

/-- Claim C10: closing an id that is not an active trade changes nothing
and raises nothing. -/
theorem close_trade_unknown_id_noop (st : TraderState) (tid reason : String)
    (exit_price : ℚ) (h : dictFind st.active_trades tid = none) :
    close_trade st tid reason exit_price = st := by
  unfold close_trade
  rw [h]

/-- Witness for C10 on the empty ledger. -/
theorem close_trade_unknown_id_noop_witness :
    close_trade emptyState "indian_NIFTY50_1" "Stop Loss Hit" 100 =
      emptyState :=
  close_trade_unknown_id_noop emptyState "indian_NIFTY50_1" "Stop Loss Hit"
    100 rfl

/-- Claim C8: closing an active trade realizes
`(exit - entry) * quantity` for a BUY and `(entry - exit) * quantity` for
a SELL, appends the record carrying that P&L, and appends a portfolio
snapshot equal to the previous portfolio value plus that P&L. -/
theorem close_trade_pnl_spec (st : TraderState) (tid reason : String)
    (exit_price : ℚ) (trade : ITrade) (pnl : ℚ)
    (h : dictFind st.active_trades tid = some trade)
    (hpnl : pnl = if trade.type = "BUY" then
        (exit_price - trade.entry_price) * trade.quantity
      else (trade.entry_price - exit_price) * trade.quantity) :
    (trade.type = "BUY" →
      pnl = (exit_price - trade.entry_price) * trade.quantity) ∧
    (trade.type = "SELL" →
      pnl = (trade.entry_price - exit_price) * trade.quantity) ∧
    (close_trade st tid reason exit_price).trade_history =
      st.trade_history ++
        [{ id := tid, symbol := trade.symbol, type := trade.type,
           entry_price := trade.entry_price, exit_price := exit_price,
           quantity := trade.quantity, reason := reason,
           pnl_amount := pnl }] ∧
    (close_trade st tid reason exit_price).portfolio_history =
      st.portfolio_history ++ [lastPortfolioValue st + pnl] ∧
    (close_trade st tid reason exit_price).total_pnl =
      st.total_pnl + pnl := by
  subst hpnl
  refine ⟨fun hb => by rw [if_pos hb], fun hs => ?_, ?_, ?_, ?_⟩
  · rw [hs, if_neg (by decide)]
  all_goals
    unfold close_trade
    rw [h]

/-- An active BUY trade on NIFTY50 used in the ledger witnesses. -/
def sampleITrade : ITrade :=
  { id := "indian_NIFTY50_1", symbol := "NIFTY50", type := "BUY",
    entry_price := 100, target_price := 102, stop_loss := 98,
    quantity := 10, confidence := 1/2, entry_epoch := 1000,
    status := "ACTIVE" }

/-- A ledger state holding the one active trade above. -/
def sampleState : TraderState :=
  { active_trades := [("indian_NIFTY50_1", sampleITrade)],
    trade_history := [], total_pnl := 0, db_trades := [],
    portfolio_history := [], db_active := ["indian_NIFTY50_1"],
    initial_balance := 100000 }

/-- Witness for C8: stopping out the sample BUY trade at 98 realizes
(98-100)*10 = -20 and appends 100000 + (-20) to the portfolio series. -/
theorem close_trade_pnl_spec_witness :
    (close_trade sampleState "indian_NIFTY50_1" "Stop Loss Hit" 98).portfolio_history =
      sampleState.portfolio_history ++ [lastPortfolioValue sampleState + (-20)] ∧
    (close_trade sampleState "indian_NIFTY50_1" "Stop Loss Hit" 98).total_pnl =
      sampleState.total_pnl + (-20) := by
  have h := close_trade_pnl_spec sampleState "indian_NIFTY50_1"
    "Stop Loss Hit" 98 sampleITrade (-20) rfl
    (by norm_num [sampleITrade])
  exact ⟨h.2.2.2.1, h.2.2.2.2⟩

/-- The market-close guard window 15:29:30–15:31:00 IST, inclusive, with
the time of day in seconds. -/
def in_market_close_guard (nowSec : ℕ) : Bool :=
  (15 * 3600 + 29 * 60 + 30 ≤ nowSec) && (nowSec ≤ 15 * 3600 + 31 * 60)

/-- The body of the `_monitor_trades` loop for one snapshot item: fetch
the current price (skip the trade when none), then check in order the
market-close guard, the 6-hour max duration (a falsy `entry_epoch` is
replaced by the current time), the stop loss, and the target. -/
def monitor_step (priceOf : String → Option ℚ) (nowSec : ℕ) (nowEpoch : ℚ)
    (s : TraderState) (item : String × ITrade) : TraderState :=
  match priceOf item.2.symbol with
  | none => s
  | some current_price =>
      if in_market_close_guard nowSec then
        close_trade s item.1 "Market Close Exit" current_price
      else if 6 * 60 * 60 ≤ nowEpoch -
          (if item.2.entry_epoch = 0 then nowEpoch else item.2.entry_epoch) then
        close_trade s item.1 "Max Duration Exit" current_price
      else if item.2.type = "BUY" ∧ current_price ≤ item.2.stop_loss then
        close_trade s item.1 "Stop Loss Hit" current_price
      else if item.2.type = "SELL" ∧ item.2.stop_loss ≤ current_price then
        close_trade s item.1 "Stop Loss Hit" current_price
      else if item.2.type = "BUY" ∧ item.2.target_price ≤ current_price then
        close_trade s item.1 "Target Reached" current_price
      else if item.2.type = "SELL" ∧ current_price ≤ item.2.target_price then
        close_trade s item.1 "Target Reached" current_price
      else s

/-- `IndianAutoTrader._monitor_trades`: one pass over a snapshot of the
active-trade items (`list(self.active_trades.items())`). -/
def monitor_trades (st : TraderState) (priceOf : String → Option ℚ)
    (nowSec : ℕ) (nowEpoch : ℚ) : TraderState :=
  st.active_trades.foldl (monitor_step priceOf nowSec nowEpoch) st

theorem close_trade_active_trades (s : TraderState) (tid reason : String)
    (p : ℚ) :
    (close_trade s tid reason p).active_trades =
      s.active_trades.filter (fun e => !(e.1 == tid)) := by
  unfold close_trade
  cases h : dictFind s.active_trades tid with
  | none =>
      have hall : ∀ e ∈ s.active_trades, (!(e.1 == tid)) = true := by
        intro e he
        have := List.find?_eq_none.mp (by
          unfold dictFind at h
          exact Option.map_eq_none.mp h) e he
        simpa using this
      rw [List.filter_eq_self.mpr hall]
  | some t => rfl

theorem close_trade_history_reasons (s : TraderState) (tid reason : String)
    (p : ℚ) :
    ∀ c ∈ (close_trade s tid reason p).trade_history,
      c ∈ s.trade_history ∨ c.reason = reason := by
  unfold close_trade
  cases h : dictFind s.active_trades tid with
  | none => exact fun c hc => Or.inl hc
  | some t =>
      intro c hc
      rcases List.mem_append.mp hc with h1 | h1
      · exact Or.inl h1
      · right
        rw [List.mem_singleton.mp h1]

theorem monitor_guard_aux (priceOf : String → Option ℚ) (nowSec : ℕ)
    (nowEpoch : ℚ) (hguard : in_market_close_guard nowSec = true)
    (items : List (String × ITrade)) :
    ∀ s : TraderState,
      (∀ e ∈ s.active_trades, e.1 ∈ items.map Prod.fst) →
      (∀ it ∈ items, (priceOf it.2.symbol).isSome) →
      (items.foldl (monitor_step priceOf nowSec nowEpoch) s).active_trades
        = [] ∧
      ∀ c ∈ (items.foldl (monitor_step priceOf nowSec nowEpoch)
          s).trade_history,
        c ∈ s.trade_history ∨ c.reason = "Market Close Exit" := by
  induction items with
  | nil =>
      intro s h1 _
      refine ⟨?_, fun c hc => Or.inl hc⟩
      simp only [List.foldl_nil]
      rw [List.eq_nil_iff_forall_not_mem]
      intro e he
      simpa using h1 e he
  | cons item rest ih =>
      intro s h1 hprice
      obtain ⟨p, hp⟩ := Option.isSome_iff_exists.mp
        (hprice item (List.mem_cons_self item rest))
      have hstep : monitor_step priceOf nowSec nowEpoch s item =
          close_trade s item.1 "Market Close Exit" p := by
        unfold monitor_step
        rw [hp]
        dsimp only
        rw [if_pos hguard]
      rw [List.foldl_cons, hstep]
      have hsub : ∀ e ∈ (close_trade s item.1 "Market Close Exit"
          p).active_trades, e.1 ∈ rest.map Prod.fst := by
        intro e he
        rw [close_trade_active_trades] at he
        have hmem := (List.mem_filter.mp he).1
        have hne : (!(e.1 == item.1)) = true := (List.mem_filter.mp he).2
        have hmm := h1 e hmem
        rw [List.map_cons] at hmm
        rcases List.mem_cons.mp hmm with hh | hh
        · exact absurd hh (by simpa using hne)
        · exact hh
      obtain ⟨hact, hhist⟩ := ih (close_trade s item.1 "Market Close Exit" p)
        hsub (fun it hit => hprice it (List.mem_cons_of_mem item hit))
      refine ⟨hact, fun c hc => ?_⟩
      rcases hhist c hc with h2 | h2
      · exact close_trade_history_reasons s item.1 "Market Close Exit" p c h2
      · exact Or.inr h2

/-- Claim C7: on a monitoring tick inside the market-close guard window
(15:29:30–15:31:00 IST), every active trade whose symbol has a current
price is closed with reason "Market Close Exit" — before and regardless
of the duration, stop and target checks; if all symbols have prices, the
active set empties. -/
theorem market_close_guard_closes_all (st : TraderState)
    (priceOf : String → Option ℚ) (nowSec : ℕ) (nowEpoch : ℚ)
    (hguard : in_market_close_guard nowSec = true)
    (hprice : ∀ it ∈ st.active_trades, (priceOf it.2.symbol).isSome) :
    (monitor_trades st priceOf nowSec nowEpoch).active_trades = [] ∧
    ∀ c ∈ (monitor_trades st priceOf nowSec nowEpoch).trade_history,
      c ∈ st.trade_history ∨ c.reason = "Market Close Exit" :=
  monitor_guard_aux priceOf nowSec nowEpoch hguard st.active_trades st
    (fun _ he => List.mem_map_of_mem Prod.fst he) hprice

/-- Witness for C7: at 15:30:00 IST (55800 s), the sample BUY trade whose
price ticks at 100 (inside stop and target) is nonetheless closed and the
active set empties. -/
theorem market_close_guard_closes_all_witness :
    (monitor_trades sampleState (fun _ => some 100) 55800
      1500).active_trades = [] :=
  (market_close_guard_closes_all sampleState (fun _ => some 100) 55800 1500
    (by decide) (fun it _ => rfl)).1

end IndianTrading
